import Mathlib

/-!
Shallow embedding of the sandboxed usage-query script engine
(`src-tauri/src/usage_script.rs`) of CC-Switch-Web, together with theorems
checking the natural-language specification against it.

Modelling conventions:
* Rust `String`/`&str` values are embedded as `List Char` (`Str` below);
  request bodies and response chunks, whose byte length matters, are
  embedded as `List Nat` (byte values).
* Machine integers (`u8` octets, `u16` segments, `usize` counters) are
  embedded as `Nat`; well-formedness predicates carry the range bounds
  where a claim needs them.  Bit operations use `&&&` (`Nat.land`).
* Foreign calls (the QuickJS interpreter, `url::Url` parsing, DNS lookup,
  the reqwest network client, UTF-8 lossy decoding) are passed in as
  explicit oracle functions; everything the repository itself computes is
  written out as executable Lean definitions.
-/

/-- Rust strings are embedded as lists of characters. -/
abbrev Str := List Char

/-- ASCII lowercasing of one character, embedding of
`u8::to_ascii_lowercase` as used by `char`/`str::to_ascii_lowercase`. -/
def asciiLowerChar (c : Char) : Char :=
  if 65 ≤ c.toNat ∧ c.toNat ≤ 90 then Char.ofNat (c.toNat + 32) else c

/-- Embedding of `str::to_ascii_lowercase`. -/
def asciiLowerStr (s : Str) : Str :=
  s.map asciiLowerChar

/-- Whitespace test used by `str::trim`.  Rust trims Unicode whitespace;
the engine only ever feeds it environment-variable text, for which the
ASCII whitespace characters are the relevant ones. -/
def isWsChar (c : Char) : Bool :=
  c.toNat == 32 || (9 ≤ c.toNat && c.toNat ≤ 13)

/-- Embedding of `str::trim` (leading and trailing whitespace removed). -/
def trimStr (s : Str) : Str :=
  ((s.dropWhile isWsChar).reverse.dropWhile isWsChar).reverse

/-- Embedding of `str::trim_end_matches('.')`: removes every trailing dot. -/
def trimEndDots (s : Str) : Str :=
  (s.reverse.dropWhile (fun c => c == '.')).reverse

/-- Embedding of `str::split(',')`: splits into comma-separated fields,
keeping empty fields (so `","` yields two empty fields). -/
def splitComma (s : Str) : List Str :=
  match s with
  | [] => [[]]
  | c :: rest =>
    if c == ',' then [] :: splitComma rest
    else
      match splitComma rest with
      | [] => [[c]]
      | g :: gs => (c :: g) :: gs

/-! ## IP address model (`std::net::{Ipv4Addr, Ipv6Addr, IpAddr}`) -/

/-- An IPv4 address as its four octets (`Ipv4Addr::octets`). -/
structure Ipv4Addr where
  a : Nat
  b : Nat
  c : Nat
  d : Nat
deriving DecidableEq

/-- An IPv6 address as its eight 16-bit segments (`Ipv6Addr::segments`). -/
structure Ipv6Addr where
  s0 : Nat
  s1 : Nat
  s2 : Nat
  s3 : Nat
  s4 : Nat
  s5 : Nat
  s6 : Nat
  s7 : Nat
deriving DecidableEq

/-- Embedding of `std::net::IpAddr`. -/
inductive IpAddr where
  | V4 (v : Ipv4Addr)
  | V6 (v : Ipv6Addr)
deriving DecidableEq

/-- Octets of an IPv4 address fit in a byte. -/
def Ipv4Addr.wf (v : Ipv4Addr) : Prop :=
  v.a < 256 ∧ v.b < 256 ∧ v.c < 256 ∧ v.d < 256

/-- Segments of an IPv6 address fit in 16 bits. -/
def Ipv6Addr.wf (v : Ipv6Addr) : Prop :=
  v.s0 < 65536 ∧ v.s1 < 65536 ∧ v.s2 < 65536 ∧ v.s3 < 65536 ∧
    v.s4 < 65536 ∧ v.s5 < 65536 ∧ v.s6 < 65536 ∧ v.s7 < 65536

/-- Machine-integer bounds for an address. -/
def IpAddr.wf : IpAddr → Prop
  | .V4 v => v.wf
  | .V6 v => v.wf

/-! ### IP classification predicates, `usage_script.rs:556-600` -/

/-- Embedding of `ipv4_is_private` (lines 556-559). -/
def ipv4_is_private (ip : Ipv4Addr) : Bool :=
  ip.a == 10 || (ip.a == 172 && (ip.b &&& 240) == 16) || (ip.a == 192 && ip.b == 168)

/-- Embedding of `ipv4_is_loopback` (lines 561-563). -/
def ipv4_is_loopback (ip : Ipv4Addr) : Bool :=
  ip.a == 127

/-- Embedding of `ipv4_is_link_local` (lines 565-568). -/
def ipv4_is_link_local (ip : Ipv4Addr) : Bool :=
  ip.a == 169 && ip.b == 254

/-- Embedding of `ipv4_is_multicast` (lines 570-572). -/
def ipv4_is_multicast (ip : Ipv4Addr) : Bool :=
  (ip.a &&& 240) == 224

/-- Embedding of `ipv4_is_broadcast` (lines 574-576). -/
def ipv4_is_broadcast (ip : Ipv4Addr) : Bool :=
  ip.a == 255 && ip.b == 255 && ip.c == 255 && ip.d == 255

/-- Embedding of `ipv4_is_unspecified` (lines 578-580). -/
def ipv4_is_unspecified (ip : Ipv4Addr) : Bool :=
  ip.a == 0 && ip.b == 0 && ip.c == 0 && ip.d == 0

/-- Embedding of `ipv6_is_loopback` (lines 582-584). -/
def ipv6_is_loopback (ip : Ipv6Addr) : Bool :=
  ip.s0 == 0 && ip.s1 == 0 && ip.s2 == 0 && ip.s3 == 0 &&
    ip.s4 == 0 && ip.s5 == 0 && ip.s6 == 0 && ip.s7 == 1

/-- Embedding of `ipv6_is_unspecified` (lines 586-588). -/
def ipv6_is_unspecified (ip : Ipv6Addr) : Bool :=
  ip.s0 == 0 && ip.s1 == 0 && ip.s2 == 0 && ip.s3 == 0 &&
    ip.s4 == 0 && ip.s5 == 0 && ip.s6 == 0 && ip.s7 == 0

/-- Embedding of `ipv6_is_multicast` (lines 590-592): `s0 & 0xff00 == 0xff00`. -/
def ipv6_is_multicast (ip : Ipv6Addr) : Bool :=
  (ip.s0 &&& 65280) == 65280

/-- Embedding of `ipv6_is_unique_local` (lines 594-596): `s0 & 0xfe00 == 0xfc00`. -/
def ipv6_is_unique_local (ip : Ipv6Addr) : Bool :=
  (ip.s0 &&& 65024) == 64512

/-- Embedding of `ipv6_is_link_local` (lines 598-600): `s0 & 0xffc0 == 0xfe80`. -/
def ipv6_is_link_local (ip : Ipv6Addr) : Bool :=
  (ip.s0 &&& 65472) == 65152

/-- Embedding of the `EgressPolicy` enum (lines 428-432). -/
inductive EgressPolicy where
  | Strict
  | Trusted
deriving DecidableEq

/-- Embedding of `is_disallowed_ip` (lines 602-625). -/
def is_disallowed_ip (ip : IpAddr) (policy : EgressPolicy) : Bool :=
  match ip with
  | .V4 v4 =>
    let blocked := ipv4_is_link_local v4 || ipv4_is_unspecified v4 ||
      ipv4_is_multicast v4 || ipv4_is_broadcast v4
    match policy with
    | .Strict => blocked || ipv4_is_loopback v4 || ipv4_is_private v4
    | .Trusted => blocked
  | .V6 v6 =>
    let blocked := ipv6_is_link_local v6 || ipv6_is_unspecified v6 || ipv6_is_multicast v6
    match policy with
    | .Strict => blocked || ipv6_is_loopback v6 || ipv6_is_unique_local v6
    | .Trusted => blocked

/-! ### Bitmask range lemmas

The repository tests address ranges with bitmasks; the spec states them
as numeric ranges.  The following lemmas convert `s &&& mask` for a mask
of contiguous high bits into arithmetic on `s`, which `omega` can then
relate to the spec's ranges. -/

/-- Division by a power of two distributes over `Nat.land`. -/
theorem and_div_pow (a b n : Nat) : (a &&& b) / 2 ^ n = (a / 2 ^ n) &&& (b / 2 ^ n) := by
  induction n with
  | zero => simp
  | succ k ih =>
    rw [pow_succ, ← Nat.div_div_eq_div_mul, ← Nat.div_div_eq_div_mul,
      ← Nat.div_div_eq_div_mul, ih, Nat.and_div_two]

/-- Masking with a value whose low `n` bits are clear factors through
division by `2 ^ n`. -/
theorem land_mask_split (s m n : Nat) (hlow : m &&& (2 ^ n - 1) = 0) :
    s &&& m = 2 ^ n * ((s / 2 ^ n) &&& (m / 2 ^ n)) := by
  have hmod : (s &&& m) % 2 ^ n = 0 := by
    rw [← Nat.and_pow_two_sub_one_eq_mod, Nat.and_assoc, hlow, Nat.and_zero]
  have hdiv := and_div_pow s m n
  have hsplit := Nat.div_add_mod (s &&& m) (2 ^ n)
  rw [hmod, Nat.add_zero] at hsplit
  conv_lhs => rw [← hsplit]
  rw [hdiv]

/-- Constructor equality helper for rewriting policy comparisons. -/
theorem strict_eq_strict : (EgressPolicy.Strict = EgressPolicy.Strict) = True := by
  simp

/-- Constructor inequality helper for rewriting policy comparisons. -/
theorem trusted_ne_strict : (EgressPolicy.Trusted = EgressPolicy.Strict) = False := by
  simp

/-- Arithmetic form of masking with `0xf0`. -/
theorem land_240 (s : Nat) : s &&& 240 = 16 * (s / 16 % 16) := by
  have h := land_mask_split s 240 4 (by decide)
  norm_num at h
  have h2 := Nat.and_pow_two_sub_one_eq_mod (s / 16) 4
  norm_num at h2
  rw [h, h2]

/-- Arithmetic form of masking with `0xff00`. -/
theorem land_ff00 (s : Nat) : s &&& 65280 = 256 * (s / 256 % 256) := by
  have h := land_mask_split s 65280 8 (by decide)
  norm_num at h
  have h2 := Nat.and_pow_two_sub_one_eq_mod (s / 256) 8
  norm_num at h2
  rw [h, h2]

/-- Arithmetic form of masking with `0xfe00`. -/
theorem land_fe00 (s : Nat) : s &&& 65024 = 512 * (s / 512 % 128) := by
  have h := land_mask_split s 65024 9 (by decide)
  norm_num at h
  have h2 := Nat.and_pow_two_sub_one_eq_mod (s / 512) 7
  norm_num at h2
  rw [h, h2]

/-- Arithmetic form of masking with `0xffc0`. -/
theorem land_ffc0 (s : Nat) : s &&& 65472 = 64 * (s / 64 % 1024) := by
  have h := land_mask_split s 65472 6 (by decide)
  norm_num at h
  have h2 := Nat.and_pow_two_sub_one_eq_mod (s / 64) 10
  norm_num at h2
  rw [h, h2]

/-- Range form of the IPv4 multicast mask test `s & 0xf0 == 224`. -/
theorem land_240_eq_224 (s : Nat) (h : s < 256) :
    ((s &&& 240) = 224) = (224 ≤ s ∧ s ≤ 239) := by
  rw [land_240]
  simp only [eq_iff_iff]
  omega

/-- Range form of the RFC1918 172.16/12 mask test `s & 0xf0 == 16`. -/
theorem land_240_eq_16 (s : Nat) (h : s < 256) :
    ((s &&& 240) = 16) = (16 ≤ s ∧ s ≤ 31) := by
  rw [land_240]
  simp only [eq_iff_iff]
  omega

/-- Range form of the IPv6 multicast mask test `s0 & 0xff00 == 0xff00`. -/
theorem land_ff00_eq (s : Nat) (h : s < 65536) :
    ((s &&& 65280) = 65280) = (65280 ≤ s ∧ s ≤ 65535) := by
  rw [land_ff00]
  simp only [eq_iff_iff]
  omega

/-- Range form of the IPv6 unique-local mask test `s0 & 0xfe00 == 0xfc00`. -/
theorem land_fe00_eq (s : Nat) (h : s < 65536) :
    ((s &&& 65024) = 64512) = (64512 ≤ s ∧ s ≤ 65023) := by
  rw [land_fe00]
  simp only [eq_iff_iff]
  omega

/-- Range form of the IPv6 link-local mask test `s0 & 0xffc0 == 0xfe80`. -/
theorem land_ffc0_eq (s : Nat) (h : s < 65536) :
    ((s &&& 65472) = 65152) = (65152 ≤ s ∧ s ≤ 65215) := by
  rw [land_ffc0]
  simp only [eq_iff_iff]
  omega

/-! ### Spec-side blocking table (written from the spec's words, for C1) -/

/-- Spec table: addresses disallowed under both policies — link-local,
unspecified, multicast, plus the IPv4 broadcast address. -/
def specAlwaysDisallowed : IpAddr → Prop
  | .V4 v =>
    (v.a = 169 ∧ v.b = 254) ∨
    (v.a = 0 ∧ v.b = 0 ∧ v.c = 0 ∧ v.d = 0) ∨
    (224 ≤ v.a ∧ v.a ≤ 239) ∨
    (v.a = 255 ∧ v.b = 255 ∧ v.c = 255 ∧ v.d = 255)
  | .V6 v =>
    (65152 ≤ v.s0 ∧ v.s0 ≤ 65215) ∨
    (v.s0 = 0 ∧ v.s1 = 0 ∧ v.s2 = 0 ∧ v.s3 = 0 ∧
      v.s4 = 0 ∧ v.s5 = 0 ∧ v.s6 = 0 ∧ v.s7 = 0) ∨
    (65280 ≤ v.s0 ∧ v.s0 ≤ 65535)

/-- Spec table: addresses additionally disallowed under `Strict` —
IPv4 loopback 127.0.0.0/8, the RFC1918 private ranges, IPv6 loopback ::1
and IPv6 unique-local fc00::/7. -/
def specStrictExtraDisallowed : IpAddr → Prop
  | .V4 v =>
    v.a = 127 ∨
    v.a = 10 ∨
    (v.a = 172 ∧ 16 ≤ v.b ∧ v.b ≤ 31) ∨
    (v.a = 192 ∧ v.b = 168)
  | .V6 v =>
    (v.s0 = 0 ∧ v.s1 = 0 ∧ v.s2 = 0 ∧ v.s3 = 0 ∧
      v.s4 = 0 ∧ v.s5 = 0 ∧ v.s6 = 0 ∧ v.s7 = 1) ∨
    (64512 ≤ v.s0 ∧ v.s0 ≤ 65023)

/-- Spec table: the full address-blocking table of the spec. -/
def specDisallowed (ip : IpAddr) (policy : EgressPolicy) : Prop :=
  specAlwaysDisallowed ip ∨ (policy = .Strict ∧ specStrictExtraDisallowed ip)

/-- C1: for every IP address and active egress policy, `is_disallowed_ip`
blocks exactly the spec's table: under both policies link-local,
unspecified and multicast addresses (and the IPv4 broadcast address);
under Strict additionally IPv4 loopback, the RFC1918 private ranges, IPv6
loopback and IPv6 unique-local; under Trusted loopback, private and
unique-local addresses are permitted. -/
theorem is_disallowed_ip_matches_spec (ip : IpAddr) (policy : EgressPolicy)
    (hwf : ip.wf) : is_disallowed_ip ip policy = true ↔ specDisallowed ip policy := by
  cases ip with
  | V4 v =>
    obtain ⟨ha, hb, hc, hd⟩ := hwf
    cases policy <;>
      simp only [is_disallowed_ip, specDisallowed, specAlwaysDisallowed,
        specStrictExtraDisallowed, ipv4_is_link_local, ipv4_is_unspecified,
        ipv4_is_multicast, ipv4_is_broadcast, ipv4_is_loopback, ipv4_is_private,
        Bool.or_eq_true, Bool.and_eq_true, beq_iff_eq,
        land_240_eq_224 v.a ha, land_240_eq_16 v.b hb,
        strict_eq_strict, trusted_ne_strict, true_and, false_and, or_false,
        or_assoc, and_assoc]
  | V6 v =>
    obtain ⟨h0, h1, h2, h3, h4, h5, h6, h7⟩ := hwf
    cases policy <;>
      simp only [is_disallowed_ip, specDisallowed, specAlwaysDisallowed,
        specStrictExtraDisallowed, ipv6_is_link_local, ipv6_is_unspecified,
        ipv6_is_multicast, ipv6_is_loopback, ipv6_is_unique_local,
        Bool.or_eq_true, Bool.and_eq_true, beq_iff_eq,
        land_ff00_eq v.s0 h0, land_fe00_eq v.s0 h0, land_ffc0_eq v.s0 h0,
        strict_eq_strict, trusted_ne_strict, true_and, false_and, or_false,
        or_assoc, and_assoc]

/-! ## Environment-level tunables (`usage_script.rs:402-426, 501-522`)

The process environment is embedded as a structure of optional raw string
values, one per variable the engine reads. -/

/-- The environment variables read by the engine.  A `none` field means the
variable is unset. -/
structure Env where
  egressPolicyVar : Option Str
  allowedHostsVar : Option Str
  maxBodyBytesVar : Option Str
  maxHeaderCountVar : Option Str
  allowRedirectsVar : Option Str
  maxResponseBytesVar : Option Str
  includeBodyVar : Option Str

/-- An environment with every tunable unset (all defaults active). -/
def Env.unset : Env :=
  ⟨none, none, none, none, none, none, none⟩

/-- Embedding of `usize::from_str` on an already-trimmed string: an
optional leading plus sign followed by at least one ASCII digit, value
within `usize` range. -/
def parseUsize (s : Str) : Option Nat :=
  let digits := match s with
    | '+' :: rest => rest
    | _ => s
  if digits ≠ [] ∧ digits.all (fun c => 48 ≤ c.toNat ∧ c.toNat ≤ 57) then
    let v := digits.foldl (fun acc c => 10 * acc + (c.toNat - 48)) 0
    if v < 2 ^ 64 then some v else none
  else none

/-- Embedding of `parse_env_usize` (lines 402-407): read the variable,
trim it, parse it as `usize`, and fall back to the default on any failure. -/
def parse_env_usize (raw : Option Str) (default : Nat) : Nat :=
  match raw with
  | none => default
  | some v => (parseUsize (trimStr v)).getD default

/-- Embedding of `env_flag` (lines 409-413): the flag is on exactly for
the literal values `1`, `true`, `TRUE`, `yes`, `on`. -/
def env_flag (raw : Option Str) : Bool :=
  match raw with
  | none => false
  | some v =>
    v == ("1".toList) || v == ("true".toList) || v == ("TRUE".toList) ||
      v == ("yes".toList) || v == ("on".toList)

/-- Embedding of `is_forbidden_header_name` (lines 415-426). -/
def is_forbidden_header_name (name : Str) : Bool :=
  name == ("host".toList) || name == ("content-length".toList) ||
    name == ("transfer-encoding".toList) || name == ("connection".toList) ||
    name == ("proxy-authorization".toList) || name == ("proxy-authenticate".toList) ||
    name == ("proxy-connection".toList)

/-- Embedding of `parse_egress_policy` (lines 501-508): trim and
ASCII-lowercase the variable; `strict` selects Strict, `trusted` selects
Trusted, and anything else — including an unset variable — is Trusted. -/
def parse_egress_policy (raw : Option Str) : EgressPolicy :=
  let normalized := asciiLowerStr (trimStr (raw.getD []))
  if normalized == ("strict".toList) then .Strict
  else if normalized == ("trusted".toList) then .Trusted
  else .Trusted

/-- Entry processing of `parse_allowed_hosts` (lines 512-516): split the
variable on commas; trim each entry, strip trailing dots, ASCII-lowercase
it; drop empty entries. -/
def allowedHostEntries (value : Str) : List Str :=
  ((splitComma value).map
    (fun entry => asciiLowerStr (trimEndDots (trimStr entry)))).filter
      (fun entry => entry ≠ [])

/-- Embedding of `parse_allowed_hosts` (lines 510-522), continued: an
unset variable or an empty processed entry list yields `none`. -/
def parse_allowed_hosts (raw : Option Str) : Option (List Str) :=
  match raw with
  | none => none
  | some value =>
    let entries := allowedHostEntries value
    if entries = [] then none else some entries

/-- Spec-side predicate (written from the claim's words, for C2): the
raw value of the policy variable explicitly selects `Trusted`. -/
def specSelectsTrusted (v : Str) : Prop :=
  asciiLowerStr (trimStr v) = ("trusted".toList)

/-- C2 counterexample: the claim says every set value that does not
explicitly select Trusted yields Strict; the value `banana` does not
select Trusted, yet `parse_egress_policy` returns Trusted. -/
theorem parse_egress_policy_claim_false :
    ¬ (parse_egress_policy (some ("banana".toList)) = .Strict ↔
        ¬ specSelectsTrusted ("banana".toList)) := by
  intro h
  have hns : ¬ specSelectsTrusted ("banana".toList) := by
    intro hsel
    have hne : asciiLowerStr (trimStr ("banana".toList)) = ("trusted".toList) := hsel
    exact absurd hne (by decide)
  exact absurd (h.mpr hns) (by decide)

/-- C2 (amended): `parse_egress_policy` returns Strict exactly when the
variable is set and its value, trimmed and ASCII-lowercased, is `strict`;
every other value — and an unset variable — yields Trusted. -/
theorem parse_egress_policy_strict_iff (raw : Option Str) :
    (parse_egress_policy raw = .Strict ↔
      ∃ v, raw = some v ∧ asciiLowerStr (trimStr v) = ("strict".toList)) ∧
      parse_egress_policy none = .Trusted := by
  refine ⟨?_, rfl⟩
  cases raw with
  | none =>
    constructor
    · intro h
      exact absurd h (by decide)
    · rintro ⟨v, hv, _⟩
      exact absurd hv (by simp)
  | some v =>
    unfold parse_egress_policy
    constructor
    · intro h
      refine ⟨v, rfl, ?_⟩
      by_cases hs : asciiLowerStr (trimStr v) == ("strict".toList)
      · exact eq_of_beq hs
      · simp only [Option.getD_some, hs, Bool.false_eq_true, if_false] at h
        by_cases ht : asciiLowerStr (trimStr v) == ("trusted".toList) <;>
          simp [ht] at h
    · rintro ⟨w, hw, hstrict⟩
      cases hw
      simp [Option.getD_some, hstrict]

/-! ## URL and request validation (`usage_script.rs:207-259, 434-554`)

`url::Url` parsing is a foreign library; its output is embedded as a
`ParsedUrl` record exposing the accessors the engine uses.  DNS lookup
(`tokio::net::lookup_host`) is embedded as an oracle function. -/

/-- Embedding of `url::Host`. -/
inductive UrlHost where
  | domain (s : Str)
  | ipv4 (ip : Ipv4Addr)
  | ipv6 (ip : Ipv6Addr)
deriving DecidableEq

/-- A parsed URL, as the accessors of `url::Url` the engine reads:
`scheme()`, `username()`, `password()`, `host()`, `host_str()` (empty when
absent), `port()`. -/
structure ParsedUrl where
  scheme : Str
  username : Str
  password : Option Str
  host : Option UrlHost
  hostStr : Str
  port : Option Nat
deriving DecidableEq

/-- DNS oracle: the addresses `lookup_host((host, port))` resolves to,
`none` meaning the lookup itself failed. -/
abbrev Dns := Str → Nat → Option (List IpAddr)

/-- The typed error values (`AppError::localized` keys) the engine produces. -/
inductive AppErr where
  | contextCreateFailed
  | configParseFailed
  | requestMissing
  | requestFormatInvalid
  | urlInvalid
  | urlSchemeNotAllowed
  | urlUserinfoNotAllowed
  | urlHostMissing
  | urlHostNotAllowed
  | urlBlocked
  | dnsLookupFailed
  | requestBodyTooLarge
  | headerCountExceeded
  | forbiddenHeader
  | invalidHttpMethod
  | requestFailed
  | readResponseFailed
  | responseTooLarge
  | httpError (status : Nat) (preview : Str)
  | configReparseFailed
  | extractorMissing
  | extractorExecFailed
  | responseParseFailed
  | resultSerializeFailed
  | jsonParseFailed
  | mustReturnObject
  | emptyArray
  | arrayValidationFailed (idx : Nat) (inner : AppErr)
  | typeErrorField (field : Str)
deriving DecidableEq

/-- Embedding of `resolve_host_ips` (lines 524-543): a failed lookup and a
lookup resolving to zero addresses are both the DNS-failure error. -/
def resolve_host_ips (dns : Dns) (host : Str) (port : Nat) : Except AppErr (List IpAddr) :=
  match dns host port with
  | none => .error .dnsLookupFailed
  | some ips => if ips = [] then .error .dnsLookupFailed else .ok ips

/-- Embedding of `ensure_ip_allowed` (lines 545-554). -/
def ensure_ip_allowed (ip : IpAddr) (policy : EgressPolicy) : Except AppErr Unit :=
  if is_disallowed_ip ip policy then .error .urlBlocked else .ok ()

/-- Known default ports of `url::Url::port_or_known_default` for the two
schemes that survive validation. -/
def schemeDefaultPort (scheme : Str) : Option Nat :=
  if scheme == ("http".toList) then some 80
  else if scheme == ("https".toList) then some 443
  else none

/-- Embedding of `url.port_or_known_default()`. -/
def port_or_known_default (url : ParsedUrl) : Option Nat :=
  match url.port with
  | some p => some p
  | none => schemeDefaultPort url.scheme

/-- Embedding of the policy-classification tail of `validate_request_url`
(lines 481-498): literal IPs are classified directly, domains are resolved
and every returned address classified. -/
def validateHostPolicy (url : ParsedUrl) (host : UrlHost) (env : Env) (dns : Dns) :
    Except AppErr ParsedUrl :=
  let policy := parse_egress_policy env.egressPolicyVar
  match host with
  | .ipv4 ip =>
    match ensure_ip_allowed (.V4 ip) policy with
    | .error e => .error e
    | .ok _ => .ok url
  | .ipv6 ip =>
    match ensure_ip_allowed (.V6 ip) policy with
    | .error e => .error e
    | .ok _ => .ok url
  | .domain d =>
    let port := (port_or_known_default url).getD 80
    match resolve_host_ips dns d port with
    | .error e => .error e
    | .ok ips =>
      if ips.any (fun ip => is_disallowed_ip ip policy) then .error .urlBlocked
      else .ok url

/-- Embedding of `validate_request_url` (lines 434-499).  The input is the
output of the foreign `Url::parse`, `none` meaning the parse failed. -/
def validate_request_url (u : Option ParsedUrl) (env : Env) (dns : Dns) :
    Except AppErr ParsedUrl :=
  match u with
  | none => .error .urlInvalid
  | some url =>
    if url.scheme != ("http".toList) && url.scheme != ("https".toList) then
      .error .urlSchemeNotAllowed
    else if !(url.username == []) || url.password.isSome then
      .error .urlUserinfoNotAllowed
    else
      match url.host with
      | none => .error .urlHostMissing
      | some host =>
        match parse_allowed_hosts env.allowedHostsVar with
        | some allowed =>
          let normalized := asciiLowerStr (trimEndDots url.hostStr)
          if !(allowed.any (fun entry => entry == normalized)) then
            .error .urlHostNotAllowed
          else validateHostPolicy url host env dns
        | none => validateHostPolicy url host env dns

/-- C3: a URL whose scheme is not exactly http or https is rejected with
the scheme error, and an http/https URL carrying a username or password is
rejected with the userinfo error — in both cases for every DNS oracle,
i.e. without any DNS resolution, regardless of the host. -/
theorem validate_request_url_rejects_early (url : ParsedUrl) (env : Env) (dns : Dns) :
    (url.scheme ≠ ("http".toList) ∧ url.scheme ≠ ("https".toList) →
      validate_request_url (some url) env dns = .error .urlSchemeNotAllowed) ∧
    ((url.scheme = ("http".toList) ∨ url.scheme = ("https".toList)) →
      (url.username ≠ [] ∨ url.password.isSome = true) →
      validate_request_url (some url) env dns = .error .urlUserinfoNotAllowed) := by
  constructor
  · rintro ⟨h1, h2⟩
    have hcond : (url.scheme != ("http".toList) && url.scheme != ("https".toList)) = true := by
      simp only [Bool.and_eq_true, bne_iff_ne, ne_eq]
      exact ⟨h1, h2⟩
    simp only [validate_request_url]
    rw [hcond]
    rfl
  · rintro hs hu
    have hcond : (url.scheme != ("http".toList) && url.scheme != ("https".toList)) = false := by
      rcases hs with h | h <;> simp [h]
    have huser : (!(url.username == []) || url.password.isSome) = true := by
      rcases hu with h | h <;> simp [h]
    simp only [validate_request_url]
    rw [hcond, huser]
    rfl

/-- The env field holding the allowlist does not influence the
policy-classification tail. -/
theorem validateHostPolicy_allowlist_irrel (url : ParsedUrl) (host : UrlHost)
    (env : Env) (x y : Option Str) (dns : Dns) :
    validateHostPolicy url host { env with allowedHostsVar := x } dns =
      validateHostPolicy url host { env with allowedHostsVar := y } dns := rfl

/-- C10: when the allowlist variable is set but every comma-separated
entry is empty after trimming and dot-stripping, `parse_allowed_hosts`
returns `none`, and URL validation behaves exactly as if the variable were
unset — the allowlist step is skipped, rather than rejecting every host
against an empty allowlist. -/
theorem parse_allowed_hosts_empty_skips (raw : Str)
    (h : allowedHostEntries raw = []) :
    parse_allowed_hosts (some raw) = none ∧
      ∀ (u : Option ParsedUrl) (env : Env) (dns : Dns),
        validate_request_url u { env with allowedHostsVar := some raw } dns =
          validate_request_url u { env with allowedHostsVar := none } dns := by
  have hp : parse_allowed_hosts (some raw) = none := by
    simp [parse_allowed_hosts, h]
  refine ⟨hp, fun u env dns => ?_⟩
  have hnone : parse_allowed_hosts none = none := rfl
  cases u with
  | none => rfl
  | some url =>
    cases hhost : url.host with
    | none =>
      simp only [validate_request_url, hp, hnone, hhost]
    | some hostv =>
      simp only [validate_request_url, hp, hnone, hhost]
      rw [validateHostPolicy_allowlist_irrel url hostv env (some raw) none dns]

/-! ## HTTP executor (`usage_script.rs:207-400`) -/

/-- Embedding of the `RequestConfig` struct (lines 208-216).  The `url`
field is the foreign parse of the config's URL string (`none` when the
string does not parse); `body` is kept as bytes because the engine checks
its byte length. -/
structure RequestConfig where
  url : Option ParsedUrl
  method : Str
  headers : List (Str × Str)
  body : Option (List Nat)

/-- The redirect policy handed to the client (lines 261-266). -/
inductive RedirectPolicy where
  | noFollow
  | limited (hops : Nat)
deriving DecidableEq

/-- A response delivered by the network oracle: the status code and the
byte-stream chunks (`none` marks a chunk whose read fails). -/
structure NetResponse where
  status : Nat
  chunks : List (Option (List Nat))

/-- Network oracle embedding `req.send().await`: `none` is a transport
failure (lines 304-347, all mapped to the request-failed error). -/
abbrev NetOracle := RequestConfig → RedirectPolicy → Nat → Option NetResponse

/-- Loop body of `read_response_body` (lines 380-397): the running total
grows by each chunk's length before the cap check, and the chunk is
appended only after the check passes.  `saturating_add` on `usize` is
exact addition here since `Nat` does not overflow. -/
def readBodyLoop (chunks : List (Option (List Nat))) (total : Nat) (buf : List Nat)
    (maxBytes : Nat) : Except AppErr (List Nat) :=
  match chunks with
  | [] => .ok buf
  | none :: _ => .error .readResponseFailed
  | some chunk :: rest =>
    let newTotal := total + chunk.length
    if newTotal > maxBytes then .error .responseTooLarge
    else readBodyLoop rest newTotal (buf ++ chunk) maxBytes

/-- Embedding of `read_response_body` (lines 376-400), returning the byte
buffer; the final `String::from_utf8_lossy` decode is foreign and is
applied by the caller. -/
def read_response_body (chunks : List (Option (List Nat))) (maxBytes : Nat) :
    Except AppErr (List Nat) :=
  readBodyLoop chunks 0 [] maxBytes

/-- Byte length of a string under UTF-8, embedding Rust `str::len`. -/
def byteLen (s : Str) : Nat :=
  (s.map Char.utf8Size).sum

/-- Embedding of byte slicing `&text[..n]`: walks characters consuming
their UTF-8 widths; returns `none` — a Rust panic — when `n` falls inside
a character (or past the end). -/
def bytePrefix (s : Str) (n : Nat) : Option Str :=
  match s, n with
  | _, 0 => some []
  | [], _ + 1 => none
  | c :: rest, m + 1 =>
    if c.utf8Size ≤ m + 1 then
      (bytePrefix rest (m + 1 - c.utf8Size)).map (fun t => c :: t)
    else none

/-- Embedding of the non-2xx body-preview computation (lines 354-364):
with the include-body flag on, bodies longer than 200 bytes are sliced at
byte 200 (`&text[..200]`, which panics — `none` — when byte 200 is not a
character boundary) and suffixed with an ellipsis; with the flag off the
body is omitted. -/
def httpErrorPreview (includeBody : Bool) (text : Str) : Option Str :=
  if includeBody then
    if byteLen text > 200 then
      (bytePrefix text 200).map (fun p => p ++ ("...".toList))
    else some text
  else some ("<response body omitted>".toList)

/-- Token characters of an HTTP method.  Modelled from the foreign
`http::Method::from_str`, which accepts nonempty RFC7230 token strings. -/
def isMethodTokenChar (c : Char) : Bool :=
  (48 ≤ c.toNat && c.toNat ≤ 57) || (65 ≤ c.toNat && c.toNat ≤ 90) ||
    (97 ≤ c.toNat && c.toNat ≤ 122) ||
    [33, 35, 36, 37, 38, 39, 42, 43, 45, 46, 94, 95, 96, 124, 126].any
      (fun n => c.toNat == n)

/-- Embedding of `config.method.parse::<reqwest::Method>()` (line 283). -/
def parseHttpMethod (s : Str) : Option Str :=
  if s ≠ [] ∧ s.all isMethodTokenChar then some s else none

/-- Embedding of `reqwest::StatusCode::is_success`. -/
def isSuccessStatus (status : Nat) : Bool :=
  200 ≤ status && status ≤ 299

/-- Outcome of the HTTP executor: a body, a typed error, or a Rust panic. -/
inductive SendRes where
  | ok (body : Str)
  | fail (e : AppErr)
  | panicked
deriving DecidableEq

/-- Embedding of `send_http_request` (lines 219-374).  The second
component records whether the network oracle was consulted (i.e. whether
`req.send()` was reached).  `decode` is the foreign
`String::from_utf8_lossy`. -/
def send_http_request (cfg : RequestConfig) (env : Env) (dns : Dns) (net : NetOracle)
    (decode : List Nat → Str) (timeoutSecs : Nat) : SendRes × Bool :=
  match validate_request_url cfg.url env dns with
  | .error e => (.fail e, false)
  | .ok _ =>
    let max_body_bytes := parse_env_usize env.maxBodyBytesVar 65536
    let bodyTooLarge : Bool :=
      match cfg.body with
      | some body => decide (body.length > max_body_bytes)
      | none => false
    if bodyTooLarge then (.fail .requestBodyTooLarge, false)
    else
      let max_header_count := parse_env_usize env.maxHeaderCountVar 32
      if cfg.headers.length > max_header_count then (.fail .headerCountExceeded, false)
      else if cfg.headers.any
          (fun kv => is_forbidden_header_name (asciiLowerStr (trimStr kv.1))) then
        (.fail .forbiddenHeader, false)
      else
        let allow_redirects := env_flag env.allowRedirectsVar
        let redirect_policy :=
          if allow_redirects then RedirectPolicy.limited 5 else RedirectPolicy.noFollow
        let timeout := min (max timeoutSecs 2) 30
        match parseHttpMethod cfg.method with
        | none => (.fail .invalidHttpMethod, false)
        | some _ =>
          match net cfg redirect_policy timeout with
          | none => (.fail .requestFailed, true)
          | some resp =>
            let max_response_bytes := parse_env_usize env.maxResponseBytesVar 1048576
            match read_response_body resp.chunks max_response_bytes with
            | .error e => (.fail e, true)
            | .ok buf =>
              let text := decode buf
              if !(isSuccessStatus resp.status) then
                match httpErrorPreview (env_flag env.includeBodyVar) text with
                | none => (.panicked, true)
                | some preview => (.fail (.httpError resp.status preview), true)
              else (.ok text, true)

/-- If the running total plus all remaining chunk bytes stays within the
cap, the loop returns the accumulated buffer extended with every chunk. -/
theorem readBodyLoop_within (chunks : List (List Nat)) :
    ∀ (total : Nat) (buf : List Nat) (maxBytes : Nat),
      total + (chunks.map List.length).sum ≤ maxBytes →
      readBodyLoop (chunks.map some) total buf maxBytes = .ok (buf ++ chunks.flatten) := by
  induction chunks with
  | nil =>
    intro total buf maxBytes h
    simp [readBodyLoop]
  | cons c rest ih =>
    intro total buf maxBytes h
    simp only [List.map_cons, List.sum_cons, List.length_map] at h
    have hc : ¬ (total + c.length > maxBytes) := by omega
    simp only [List.map_cons, readBodyLoop]
    rw [if_neg hc, ih (total + c.length) (buf ++ c) maxBytes (by omega)]
    simp

/-- If the remaining chunk bytes push the running total past the cap, the
loop fails with the response-too-large error exactly. -/
theorem readBodyLoop_exceeds (chunks : List (List Nat)) :
    ∀ (total : Nat) (buf : List Nat) (maxBytes : Nat),
      total ≤ maxBytes →
      total + (chunks.map List.length).sum > maxBytes →
      readBodyLoop (chunks.map some) total buf maxBytes = .error .responseTooLarge := by
  induction chunks with
  | nil =>
    intro total buf maxBytes hle hgt
    simp at hgt
    omega
  | cons c rest ih =>
    intro total buf maxBytes hle hgt
    simp only [List.map_cons, List.sum_cons, List.length_map] at hgt
    simp only [List.map_cons, readBodyLoop]
    by_cases hc : total + c.length > maxBytes
    · rw [if_pos hc]
    · rw [if_neg hc]
      exact ih (total + c.length) (buf ++ c) maxBytes (by omega) (by omega)

/-- C4: for every chunked byte stream and cap, `read_response_body`
returns the full concatenated body when the total size fits within the
cap, and fails with the response-too-large error as soon as the
cumulative count exceeds it — so no partial body is ever returned, and
the returned buffer (the concatenation, whose length is the total) never
exceeds the cap. -/
theorem read_response_body_cap (chunks : List (List Nat)) (maxBytes : Nat) :
    ((chunks.map List.length).sum ≤ maxBytes →
      read_response_body (chunks.map some) maxBytes = .ok chunks.flatten) ∧
    ((chunks.map List.length).sum > maxBytes →
      read_response_body (chunks.map some) maxBytes = .error .responseTooLarge) := by
  constructor
  · intro h
    have := readBodyLoop_within chunks 0 [] maxBytes (by omega)
    simpa [read_response_body] using this
  · intro h
    exact readBodyLoop_exceeds chunks 0 [] maxBytes (by omega) (by omega)

/-- Witness for C4 at concrete streams: a 3-byte stream under a cap of 5
is returned whole; a stream of 2+2 bytes under a cap of 3 is rejected. -/
theorem read_response_body_cap_witness :
    read_response_body ([[1, 2, 3]].map some) 5 = .ok [1, 2, 3] ∧
      read_response_body ([[1, 2], [3, 4]].map some) 3 = .error .responseTooLarge :=
  ⟨(read_response_body_cap [[1, 2, 3]] 5).1 (by decide),
   (read_response_body_cap [[1, 2], [3, 4]] 3).2 (by decide)⟩

/-- A parsed public-address URL used to exercise the executor. -/
def exampleUrl : ParsedUrl :=
  { scheme := ("http".toList), username := [], password := none,
    host := some (.ipv4 ⟨93, 184, 216, 34⟩), hostStr := ("93.184.216.34".toList),
    port := none }

/-- A DNS oracle whose every lookup fails (never consulted in the uses below). -/
def dnsNone : Dns := fun _ _ => none

/-- A body text of 199 one-byte characters followed by a two-byte
character: its byte length is 201 and byte offset 200 falls inside the
final character. -/
def previewPanicText : Str :=
  List.replicate 199 'a' ++ ['é']

set_option maxRecDepth 40000 in
/-- C8: the non-2xx preview computation is not total.  With the
include-body flag on and a body whose 200th byte offset falls inside a
multi-byte UTF-8 character, the byte slice `&text[..200]` has no character
boundary at 200, so `httpErrorPreview` yields the panic outcome, and
`send_http_request` on such a response panics instead of reporting the
HTTP error. -/
theorem send_http_request_preview_panics :
    httpErrorPreview true previewPanicText = none ∧
    send_http_request
      { url := some exampleUrl, method := ("GET".toList), headers := [], body := none }
      { Env.unset with includeBodyVar := some ("1".toList) } dnsNone
      (fun _ _ _ => some { status := 500, chunks := [some (List.replicate 199 97 ++ [195, 169])] })
      (fun _ => previewPanicText) 10 = (.panicked, true) := by
  constructor
  · rfl
  · rfl

/-- C6: with a URL that passes validation, `send_http_request` rejects —
for every network oracle, i.e. before any request is sent (`false` flag) —
with the body-too-large error when the body's byte length exceeds the
configured maximum (default 65536); with the header-count error when,
the body being acceptable, the header count exceeds the configured
maximum (default 32); and with the forbidden-header error when, size
checks passing, some header name after trimming and ASCII-lowercasing is
on the forbidden list. -/
theorem send_http_request_preflight (cfg : RequestConfig) (env : Env) (dns : Dns)
    (net : NetOracle) (decode : List Nat → Str) (timeoutSecs : Nat) (u : ParsedUrl)
    (hu : validate_request_url cfg.url env dns = .ok u) :
    (∀ body, cfg.body = some body →
      body.length > parse_env_usize env.maxBodyBytesVar 65536 →
      send_http_request cfg env dns net decode timeoutSecs =
        (.fail .requestBodyTooLarge, false)) ∧
    ((∀ body, cfg.body = some body →
        body.length ≤ parse_env_usize env.maxBodyBytesVar 65536) →
      cfg.headers.length > parse_env_usize env.maxHeaderCountVar 32 →
      send_http_request cfg env dns net decode timeoutSecs =
        (.fail .headerCountExceeded, false)) ∧
    ((∀ body, cfg.body = some body →
        body.length ≤ parse_env_usize env.maxBodyBytesVar 65536) →
      cfg.headers.length ≤ parse_env_usize env.maxHeaderCountVar 32 →
      cfg.headers.any
        (fun kv => is_forbidden_header_name (asciiLowerStr (trimStr kv.1))) = true →
      send_http_request cfg env dns net decode timeoutSecs =
        (.fail .forbiddenHeader, false)) := by
  refine ⟨?_, ?_, ?_⟩
  · intro body hbody hlen
    simp only [send_http_request, hu, hbody]
    rw [if_pos (decide_eq_true hlen)]
  · intro hbody hcount
    simp only [send_http_request, hu]
    cases hb : cfg.body with
    | none =>
      simp only [hb]
      rw [if_neg (by simp), if_pos hcount]
    | some body =>
      have hle := hbody body hb
      simp only [hb]
      rw [if_neg (by simpa using Nat.not_lt.mpr hle), if_pos hcount]
  · intro hbody hcount hforbidden
    simp only [send_http_request, hu]
    have hcount' : ¬ (cfg.headers.length > parse_env_usize env.maxHeaderCountVar 32) :=
      Nat.not_lt.mpr hcount
    cases hb : cfg.body with
    | none =>
      simp only [hb]
      rw [if_neg (by simp), if_neg hcount', if_pos hforbidden]
    | some body =>
      have hle := hbody body hb
      simp only [hb]
      rw [if_neg (by simpa using Nat.not_lt.mpr hle), if_neg hcount', if_pos hforbidden]

/-- Witness for C6 at a concrete config: a 65537-byte body under the
default 65536 cap is rejected without the network oracle being consulted. -/
theorem send_http_request_preflight_witness :
    send_http_request
      { url := some exampleUrl, method := ("GET".toList), headers := [],
        body := some (List.replicate 65537 0) }
      Env.unset dnsNone (fun _ _ _ => none) (fun _ => []) 10 =
      (.fail .requestBodyTooLarge, false) :=
  (send_http_request_preflight
      { url := some exampleUrl, method := ("GET".toList), headers := [],
        body := some (List.replicate 65537 0) }
      Env.unset dnsNone (fun _ _ _ => none) (fun _ => []) 10 exampleUrl rfl).1
    (List.replicate 65537 0) rfl
    (by simp only [List.length_replicate, parse_env_usize, Env.unset]; omega)

/-- Witness for C1 at a concrete address: 127.0.0.1 under Strict. -/
theorem is_disallowed_ip_matches_spec_witness :
    (IpAddr.V4 ⟨127, 0, 0, 1⟩).wf ∧
      (is_disallowed_ip (.V4 ⟨127, 0, 0, 1⟩) .Strict = true ↔
        specDisallowed (.V4 ⟨127, 0, 0, 1⟩) .Strict) :=
  ⟨by simp [IpAddr.wf, Ipv4Addr.wf],
   is_disallowed_ip_matches_spec (.V4 ⟨127, 0, 0, 1⟩) .Strict
     (by simp [IpAddr.wf, Ipv4Addr.wf])⟩

/-- Witness for C3 at concrete URLs: an ftp URL is rejected with the
scheme error and an http URL with a username with the userinfo error,
under a DNS oracle that is never consulted. -/
theorem validate_request_url_rejects_early_witness :
    validate_request_url
      (some { scheme := ("ftp".toList), username := [], password := none,
              host := some (.domain ("example.com".toList)),
              hostStr := ("example.com".toList), port := none })
      Env.unset dnsNone = .error .urlSchemeNotAllowed ∧
    validate_request_url
      (some { scheme := ("http".toList), username := ("user".toList), password := none,
              host := some (.domain ("example.com".toList)),
              hostStr := ("example.com".toList), port := none })
      Env.unset dnsNone = .error .urlUserinfoNotAllowed :=
  ⟨(validate_request_url_rejects_early _ Env.unset dnsNone).1 (by decide),
   (validate_request_url_rejects_early _ Env.unset dnsNone).2 (by decide) (by decide)⟩

/-- Witness for C10 at the concrete allowlist value `" , "`. -/
theorem parse_allowed_hosts_empty_skips_witness :
    parse_allowed_hosts (some (" , ".toList)) = none ∧
      validate_request_url (some exampleUrl)
          { Env.unset with allowedHostsVar := some (" , ".toList) } dnsNone =
        validate_request_url (some exampleUrl)
          { Env.unset with allowedHostsVar := none } dnsNone :=
  ⟨(parse_allowed_hosts_empty_skips (" , ".toList) (by decide)).1,
   (parse_allowed_hosts_empty_skips (" , ".toList) (by decide)).2
     (some exampleUrl) Env.unset dnsNone⟩

/-! ## Result validation (`usage_script.rs:648-756`)

`serde_json::Value` is embedded as an inductive JSON value; objects are
association lists with the unique keys `serde_json::Map` guarantees. -/

/-- Embedding of `serde_json::Value`.  Numbers carry an integer payload;
only their kind matters to validation. -/
inductive Json where
  | jnull
  | jbool (b : Bool)
  | jnum (n : Int)
  | jstr (s : Str)
  | jarr (items : List Json)
  | jobj (fields : List (Str × Json))

/-- serde `Value::is_null`. -/
def Json.isNull : Json → Bool
  | .jnull => true
  | _ => false

/-- serde `Value::is_boolean`. -/
def Json.isBool : Json → Bool
  | .jbool _ => true
  | _ => false

/-- serde `Value::is_number`. -/
def Json.isNumber : Json → Bool
  | .jnum _ => true
  | _ => false

/-- serde `Value::is_string`. -/
def Json.isString : Json → Bool
  | .jstr _ => true
  | _ => false

/-- Field access `result["key"]` on an object's fields: the value, or
Null when the key is absent. -/
def jsonIndex (fields : List (Str × Json)) (key : Str) : Json :=
  match fields with
  | [] => .jnull
  | (k, v) :: rest => if k == key then v else jsonIndex rest key

/-- serde `Map::contains_key`. -/
def jsonContainsKey (fields : List (Str × Json)) (key : Str) : Bool :=
  fields.any (fun kv => kv.1 == key)

/-- Embedding of `validate_single_usage` (lines 676-756): the value must
be an object; each of the eight fields may be absent or null, and when
present and non-null must match its declared primitive type, checked in
source order. -/
def validate_single_usage (result : Json) : Except AppErr Unit :=
  match result with
  | .jobj fields =>
    if jsonContainsKey fields ("isValid".toList) &&
        !(jsonIndex fields ("isValid".toList)).isNull &&
        !(jsonIndex fields ("isValid".toList)).isBool then
      .error (.typeErrorField ("isValid".toList))
    else if jsonContainsKey fields ("invalidMessage".toList) &&
        !(jsonIndex fields ("invalidMessage".toList)).isNull &&
        !(jsonIndex fields ("invalidMessage".toList)).isString then
      .error (.typeErrorField ("invalidMessage".toList))
    else if jsonContainsKey fields ("remaining".toList) &&
        !(jsonIndex fields ("remaining".toList)).isNull &&
        !(jsonIndex fields ("remaining".toList)).isNumber then
      .error (.typeErrorField ("remaining".toList))
    else if jsonContainsKey fields ("unit".toList) &&
        !(jsonIndex fields ("unit".toList)).isNull &&
        !(jsonIndex fields ("unit".toList)).isString then
      .error (.typeErrorField ("unit".toList))
    else if jsonContainsKey fields ("total".toList) &&
        !(jsonIndex fields ("total".toList)).isNull &&
        !(jsonIndex fields ("total".toList)).isNumber then
      .error (.typeErrorField ("total".toList))
    else if jsonContainsKey fields ("used".toList) &&
        !(jsonIndex fields ("used".toList)).isNull &&
        !(jsonIndex fields ("used".toList)).isNumber then
      .error (.typeErrorField ("used".toList))
    else if jsonContainsKey fields ("planName".toList) &&
        !(jsonIndex fields ("planName".toList)).isNull &&
        !(jsonIndex fields ("planName".toList)).isString then
      .error (.typeErrorField ("planName".toList))
    else if jsonContainsKey fields ("extra".toList) &&
        !(jsonIndex fields ("extra".toList)).isNull &&
        !(jsonIndex fields ("extra".toList)).isString then
      .error (.typeErrorField ("extra".toList))
    else .ok ()
  | _ => .error .mustReturnObject

/-- The indexed element loop of `validate_result` (lines 659-667): the
first failing element aborts with its index attached. -/
def validateArrayLoop (items : List Json) (idx : Nat) : Except AppErr Unit :=
  match items with
  | [] => .ok ()
  | item :: rest =>
    match validate_single_usage item with
    | .error e => .error (.arrayValidationFailed idx e)
    | .ok _ => validateArrayLoop rest (idx + 1)

/-- Embedding of `validate_result` (lines 649-673): arrays must be
non-empty and have every element valid; anything that is not an array is
validated as a single object. -/
def validate_result (result : Json) : Except AppErr Unit :=
  match result with
  | .jarr items =>
    if items.isEmpty then .error .emptyArray
    else validateArrayLoop items 0
  | _ => validate_single_usage result

/-- Whether validation succeeded. -/
def exceptIsOk : Except AppErr Unit → Bool
  | .ok _ => true
  | .error _ => false

/-- Spec-side per-field condition (from the claim's words): the field may
be absent or null, and when present and non-null must match its type. -/
def specFieldOk (fields : List (Str × Json)) (key : Str) (isTy : Json → Bool) : Bool :=
  !(jsonContainsKey fields key) || (jsonIndex fields key).isNull ||
    isTy (jsonIndex fields key)

/-- Spec-side single-object schema (from the claim's words). -/
def specSingleOk (v : Json) : Bool :=
  match v with
  | .jobj fields =>
    specFieldOk fields ("isValid".toList) Json.isBool &&
    specFieldOk fields ("invalidMessage".toList) Json.isString &&
    specFieldOk fields ("remaining".toList) Json.isNumber &&
    specFieldOk fields ("unit".toList) Json.isString &&
    specFieldOk fields ("total".toList) Json.isNumber &&
    specFieldOk fields ("used".toList) Json.isNumber &&
    specFieldOk fields ("planName".toList) Json.isString &&
    specFieldOk fields ("extra".toList) Json.isString
  | _ => false

/-- Spec-side result shape (from the claim's words): a non-empty array of
valid objects, or a single valid object. -/
def specResultOk (v : Json) : Bool :=
  match v with
  | .jarr items => !items.isEmpty && items.all specSingleOk
  | _ => specSingleOk v

/-- The spec-side field condition is the negation of the source's
violation test. -/
theorem specFieldOk_not_cond (fields : List (Str × Json)) (key : Str)
    (isTy : Json → Bool) :
    specFieldOk fields key isTy =
      !(jsonContainsKey fields key && !(jsonIndex fields key).isNull &&
        !(isTy (jsonIndex fields key))) := by
  simp [specFieldOk, Bool.not_and, Bool.not_not]

/-- A field passes the spec-side check when the source's violation test
is false. -/
theorem fieldOk_of_not_cond (A B C : Bool) (h : A = true → B = false → C = true) :
    (A = false ∨ B = true) ∨ C = true := by
  cases A <;> cases B <;> cases C <;> simp_all

/-- Success of the single-object validator coincides with the spec-side
schema. -/
theorem validate_single_usage_ok (v : Json) :
    exceptIsOk (validate_single_usage v) = specSingleOk v := by
  cases v with
  | jobj fields =>
    simp only [validate_single_usage, specSingleOk, specFieldOk_not_cond]
    split_ifs with h1 h2 h3 h4 h5 h6 h7 h8 <;> simp_all [exceptIsOk]
    exact ⟨⟨⟨⟨⟨⟨⟨fieldOk_of_not_cond _ _ _ h1, fieldOk_of_not_cond _ _ _ h2⟩,
      fieldOk_of_not_cond _ _ _ h3⟩, fieldOk_of_not_cond _ _ _ h4⟩,
      fieldOk_of_not_cond _ _ _ h5⟩, fieldOk_of_not_cond _ _ _ h6⟩,
      fieldOk_of_not_cond _ _ _ h7⟩, fieldOk_of_not_cond _ _ _ h8⟩
  | jnull => rfl
  | jbool b => rfl
  | jnum n => rfl
  | jstr s => rfl
  | jarr items => rfl

/-- Success of the element loop coincides with all elements being valid. -/
theorem validateArrayLoop_ok (items : List Json) :
    ∀ idx, exceptIsOk (validateArrayLoop items idx) = items.all specSingleOk := by
  induction items with
  | nil => intro idx; rfl
  | cons item rest ih =>
    intro idx
    simp only [validateArrayLoop, List.all_cons]
    cases hv : validate_single_usage item with
    | error e =>
      have := validate_single_usage_ok item
      rw [hv] at this
      simp [exceptIsOk, ← this]
    | ok u =>
      have hspec := validate_single_usage_ok item
      rw [hv] at hspec
      have htrue : specSingleOk item = true := by rw [← hspec]; rfl
      simp [htrue, ih (idx + 1)]

/-- The element loop reports the index of the first failing element. -/
theorem validateArrayLoop_firstError (x : Json) (e : AppErr)
    (hx : validate_single_usage x = .error e) :
    ∀ (pre post : List Json) (idx : Nat),
      (∀ y ∈ pre, exceptIsOk (validate_single_usage y) = true) →
      validateArrayLoop (pre ++ x :: post) idx =
        .error (.arrayValidationFailed (idx + pre.length) e) := by
  intro pre
  induction pre with
  | nil =>
    intro post idx _
    simp only [List.nil_append, validateArrayLoop, hx, List.length_nil, Nat.add_zero]
  | cons y rest ih =>
    intro post idx hall
    have hy : exceptIsOk (validate_single_usage y) = true := hall y (by simp)
    cases hv : validate_single_usage y with
    | error ey =>
      rw [hv] at hy
      simp [exceptIsOk] at hy
    | ok u =>
      simp only [List.cons_append, validateArrayLoop, hv, List.append_eq]
      rw [ih post (idx + 1) (fun z hz => hall z (by simp [hz]))]
      simp only [List.length_cons]
      have harith : idx + 1 + rest.length = idx + (rest.length + 1) := by omega
      rw [harith]

/-- C5: `validate_result` succeeds exactly on the spec's shapes — a
non-empty array whose every element passes the per-field checks, or a
single object passing them (each of the eight fields absent, null, or of
its declared type); the empty array is rejected with the empty-array
error; and the first failing array element's error is tagged with its
index. -/
theorem validate_result_matches_spec (v : Json) :
    (exceptIsOk (validate_result v) = specResultOk v) ∧
    (validate_result (.jarr []) = .error .emptyArray) ∧
    (∀ (pre post : List Json) (x : Json) (e : AppErr),
      (∀ y ∈ pre, exceptIsOk (validate_single_usage y) = true) →
      validate_single_usage x = .error e →
      validate_result (.jarr (pre ++ x :: post)) =
        .error (.arrayValidationFailed pre.length e)) := by
  refine ⟨?_, rfl, ?_⟩
  · cases v with
    | jarr items =>
      cases items with
      | nil => rfl
      | cons a rest =>
        simp only [validate_result, specResultOk, List.isEmpty_cons,
          Bool.false_eq_true, if_false, Bool.not_false, Bool.true_and]
        exact validateArrayLoop_ok (a :: rest) 0
    | jnull =>
      simp only [validate_result, specResultOk]
      exact validate_single_usage_ok _
    | jbool b =>
      simp only [validate_result, specResultOk]
      exact validate_single_usage_ok _
    | jnum n =>
      simp only [validate_result, specResultOk]
      exact validate_single_usage_ok _
    | jstr s =>
      simp only [validate_result, specResultOk]
      exact validate_single_usage_ok _
    | jobj fields =>
      simp only [validate_result, specResultOk]
      exact validate_single_usage_ok _
  · intro pre post x e hall hx
    simp only [validate_result]
    rw [if_neg (by simp)]
    have h := validateArrayLoop_firstError x e hx pre post 0 hall
    simpa using h

/-- Witness for C5 at concrete values: a single well-typed object agrees
with the spec shape, the empty array yields the empty-array error, and an
array failing at element 1 reports index 1 and the offending field. -/
theorem validate_result_matches_spec_witness :
    (exceptIsOk (validate_result (.jobj [(("remaining".toList), .jnum 42)])) =
      specResultOk (.jobj [(("remaining".toList), .jnum 42)])) ∧
    validate_result (.jarr []) = .error .emptyArray ∧
    validate_result
        (.jarr [.jobj [], .jobj [(("remaining".toList), .jstr ("lots".toList))]]) =
      .error (.arrayValidationFailed 1 (.typeErrorField ("remaining".toList))) :=
  ⟨(validate_result_matches_spec (.jobj [(("remaining".toList), .jnum 42)])).1,
   (validate_result_matches_spec .jnull).2.1,
   (validate_result_matches_spec .jnull).2.2 [.jobj []] []
     (.jobj [(("remaining".toList), .jstr ("lots".toList))])
     (.typeErrorField ("remaining".toList))
     (by
       intro y hy
       rw [List.mem_singleton] at hy
       subst hy
       rfl)
     rfl⟩

/-! ## Variable substitution (`usage_script.rs:28-41`) and orchestrator -/

/-- Prefix test on character lists. -/
def strStartsWith (pat s : Str) : Bool :=
  match pat, s with
  | [], _ => true
  | _ :: _, [] => false
  | p :: ps, c :: cs => p == c && strStartsWith ps cs

/-- Substring occurrence test: `pat` occurs somewhere in `s`. -/
def containsSub (s pat : Str) : Bool :=
  strStartsWith pat s ||
    match s with
    | [] => false
    | _ :: rest => containsSub rest pat

/-- Fuel-based scanner embedding `str::replace`: scan left to right; at a
match emit the replacement and continue after the matched text without
rescanning the replacement; otherwise copy one character.  Any fuel of at
least `s.length` yields the replace semantics; the engine's patterns are
never empty, and an empty pattern is treated as no match. -/
def replaceFuel (pat rep : Str) : Nat → Str → Str
  | 0, s => s
  | _ + 1, [] => []
  | fuel + 1, c :: rest =>
    if strStartsWith pat (c :: rest) && !pat.isEmpty then
      rep ++ replaceFuel pat rep fuel ((c :: rest).drop pat.length)
    else c :: replaceFuel pat rep fuel rest

/-- Embedding of `str::replace(pat, rep)`. -/
def replaceList (s pat rep : Str) : Str :=
  replaceFuel pat rep s.length s

/-- The `{{apiKey}}` placeholder text. -/
def apiKeyPlaceholder : Str := "\x7b\x7bapiKey\x7d\x7d".toList

/-- The `{{baseUrl}}` placeholder text. -/
def baseUrlPlaceholder : Str := "\x7b\x7bbaseUrl\x7d\x7d".toList

/-- The `{{accessToken}}` placeholder text. -/
def accessTokenPlaceholder : Str := "\x7b\x7baccessToken\x7d\x7d".toList

/-- The `{{userId}}` placeholder text. -/
def userIdPlaceholder : Str := "\x7b\x7buserId\x7d\x7d".toList

/-- Embedding of the variable-substitution step (lines 28-41): four
sequential full-text replacement passes — apiKey, baseUrl, then
accessToken and userId only when the caller supplied them. -/
def substituteVars (script apiKey baseUrl : Str) (accessToken userId : Option Str) : Str :=
  let r1 := replaceList script apiKeyPlaceholder apiKey
  let r2 := replaceList r1 baseUrlPlaceholder baseUrl
  let r3 :=
    match accessToken with
    | some token => replaceList r2 accessTokenPlaceholder token
    | none => r2
  match userId with
  | some uid => replaceList r3 userIdPlaceholder uid
  | none => r3

/-- Spec-side simultaneous substitution (written from the claim's words,
for C9): one left-to-right scan replacing each placeholder occurrence by
its value, skipping absent optional values, never rescanning substituted
text — so placeholder text inside a substituted value stays untouched. -/
def simSubstFuel (apiKey baseUrl : Str) (accessToken userId : Option Str) :
    Nat → Str → Str
  | 0, s => s
  | _ + 1, [] => []
  | fuel + 1, c :: rest =>
    if strStartsWith apiKeyPlaceholder (c :: rest) then
      apiKey ++ simSubstFuel apiKey baseUrl accessToken userId fuel
        ((c :: rest).drop apiKeyPlaceholder.length)
    else if strStartsWith baseUrlPlaceholder (c :: rest) then
      baseUrl ++ simSubstFuel apiKey baseUrl accessToken userId fuel
        ((c :: rest).drop baseUrlPlaceholder.length)
    else if accessToken.isSome && strStartsWith accessTokenPlaceholder (c :: rest) then
      accessToken.getD [] ++ simSubstFuel apiKey baseUrl accessToken userId fuel
        ((c :: rest).drop accessTokenPlaceholder.length)
    else if userId.isSome && strStartsWith userIdPlaceholder (c :: rest) then
      userId.getD [] ++ simSubstFuel apiKey baseUrl accessToken userId fuel
        ((c :: rest).drop userIdPlaceholder.length)
    else c :: simSubstFuel apiKey baseUrl accessToken userId fuel rest

/-- Spec-side simultaneous substitution over a whole script. -/
def simSubst (script apiKey baseUrl : Str) (accessToken userId : Option Str) : Str :=
  simSubstFuel apiKey baseUrl accessToken userId script.length script

/-- C9 counterexample: with script `{{apiKey}}`, apiKey value
`{{baseUrl}}` and baseUrl value `B`, the code's sequential passes produce
`B` — the placeholder inside the substituted apiKey value IS substituted
by the later baseUrl pass — whereas the claim's no-recursive-substitution
semantics leaves `{{baseUrl}}` in place. -/
theorem substitution_not_simultaneous :
    substituteVars apiKeyPlaceholder baseUrlPlaceholder ("B".toList) none none =
      ("B".toList) ∧
    simSubst apiKeyPlaceholder baseUrlPlaceholder ("B".toList) none none =
      baseUrlPlaceholder ∧
    ("B".toList) ≠ baseUrlPlaceholder := by
  refine ⟨rfl, rfl, by decide⟩

/-- A pattern that never occurs is never replaced. -/
theorem replaceFuel_no_occur (pat rep : Str) :
    ∀ (fuel : Nat) (s : Str), containsSub s pat = false →
      replaceFuel pat rep fuel s = s := by
  intro fuel
  induction fuel with
  | zero => intro s h; rfl
  | succ f ih =>
    intro s h
    cases s with
    | nil => rfl
    | cons c rest =>
      simp only [containsSub, Bool.or_eq_false_iff] at h
      simp only [replaceFuel, h.1, Bool.false_and, Bool.false_eq_true, if_false]
      rw [ih rest h.2]

/-- A pattern that never occurs is never replaced (at the call fuel). -/
theorem replaceList_no_occur (s pat rep : Str) (h : containsSub s pat = false) :
    replaceList s pat rep = s :=
  replaceFuel_no_occur pat rep s.length s h

/-- C9 (amended): substitution is four sequential replacement passes in
order apiKey, baseUrl, accessToken, userId; it never fails; a script
containing no occurrence of the active placeholders is left unchanged —
in particular, absent optional values skip their placeholders, which
survive verbatim.  (Unlike the original claim, substitution is not
simultaneous: a later placeholder inside an earlier-substituted value is
substituted by the later pass, as the counterexample shows.) -/
theorem substituteVars_sequential (script apiKey baseUrl : Str) :
    (∀ (accessToken userId : Option Str),
      containsSub script apiKeyPlaceholder = false →
      containsSub script baseUrlPlaceholder = false →
      containsSub script accessTokenPlaceholder = false →
      containsSub script userIdPlaceholder = false →
      substituteVars script apiKey baseUrl accessToken userId = script) ∧
    (containsSub script apiKeyPlaceholder = false →
      containsSub script baseUrlPlaceholder = false →
      substituteVars script apiKey baseUrl none none = script) := by
  constructor
  · intro accessToken userId h1 h2 h3 h4
    cases accessToken <;> cases userId <;>
      simp only [substituteVars, replaceList_no_occur script _ _ h1,
        replaceList_no_occur script _ _ h2, replaceList_no_occur script _ _ h3,
        replaceList_no_occur script _ _ h4]
  · intro h1 h2
    simp only [substituteVars, replaceList_no_occur script _ _ h1,
      replaceList_no_occur script _ _ h2]

/-- Witness for C9 (amended) at concrete scripts: a placeholder-free
script is unchanged, and an absent accessToken leaves `{{accessToken}}`
verbatim. -/
theorem substituteVars_sequential_witness :
    substituteVars ("hello".toList) ("k".toList) ("b".toList)
        (some ("t".toList)) (some ("u".toList)) = ("hello".toList) ∧
      substituteVars accessTokenPlaceholder ("k".toList) ("b".toList) none none =
        accessTokenPlaceholder :=
  ⟨(substituteVars_sequential ("hello".toList) ("k".toList) ("b".toList)).1
      (some ("t".toList)) (some ("u".toList)) (by decide) (by decide) (by decide) (by decide),
   (substituteVars_sequential accessTokenPlaceholder ("k".toList) ("b".toList)).2
      (by decide) (by decide)⟩

/-- Oracles for the foreign QuickJS interpreter sessions.  `α` is the
type of evaluated config objects.  `evalConfig` is `ctx.eval` on the
substituted source (`none` = evaluation failed); `getRequest` covers
reading and stringifying the `request` property (failures folded into
`none`); `getExtractor` yields the extractor as a function from response
JSON text to result JSON text (`none` at call time = parse, call or
serialization failure). -/
structure JsOracles (α : Type) where
  evalConfig : Str → Option α
  getRequest : α → Option Str
  parseRequestConfig : Str → Option RequestConfig
  getExtractor : α → Option (Str → Option Str)
  parseResultJson : Str → Option Json

/-- Overall outcome of one engine invocation. -/
inductive ExecOutcome where
  | ok (value : Json)
  | err (e : AppErr)
  | panicked

/-- Embedding of `execute_usage_script` (lines 20-205): substitution,
phase-1 config extraction, request parse, the HTTP step, phase-2
extraction, and result validation, in source order.  The second component
records whether step 4 — URL validation and the HTTP executor inside
`send_http_request` — was reached. -/
def execute_usage_script {α : Type} (js : JsOracles α) (env : Env) (dns : Dns)
    (net : NetOracle) (decode : List Nat → Str)
    (script apiKey baseUrl : Str) (accessToken userId : Option Str)
    (timeoutSecs : Nat) : ExecOutcome × Bool :=
  let scriptSource := substituteVars script apiKey baseUrl accessToken userId
  match js.evalConfig scriptSource with
  | none => (.err .configParseFailed, false)
  | some config =>
    match js.getRequest config with
    | none => (.err .requestMissing, false)
    | some requestJson =>
      match js.parseRequestConfig requestJson with
      | none => (.err .requestFormatInvalid, false)
      | some request =>
        match send_http_request request env dns net decode timeoutSecs with
        | (.fail e, _) => (.err e, true)
        | (.panicked, _) => (.panicked, true)
        | (.ok responseText, _) =>
          match js.evalConfig scriptSource with
          | none => (.err .configReparseFailed, true)
          | some config2 =>
            match js.getExtractor config2 with
            | none => (.err .extractorMissing, true)
            | some extractor =>
              match extractor responseText with
              | none => (.err .extractorExecFailed, true)
              | some resultJson =>
                match js.parseResultJson resultJson with
                | none => (.err .jsonParseFailed, true)
                | some result =>
                  match validate_result result with
                  | .error e => (.err e, true)
                  | .ok _ => (.ok result, true)

/-- C7: whenever phase-1 evaluation of the substituted script fails —
every syntactically invalid script included — the engine returns the
config-parse (script-evaluation) error, for every DNS and network oracle,
and the step-4 flag is false: URL validation and the HTTP executor are
never reached, so no network call is attempted. -/
theorem execute_usage_script_eval_failure {α : Type} (js : JsOracles α) (env : Env)
    (dns : Dns) (net : NetOracle) (decode : List Nat → Str)
    (script apiKey baseUrl : Str) (accessToken userId : Option Str) (timeoutSecs : Nat)
    (heval : js.evalConfig (substituteVars script apiKey baseUrl accessToken userId) = none) :
    execute_usage_script js env dns net decode script apiKey baseUrl accessToken userId
      timeoutSecs = (.err .configParseFailed, false) := by
  simp only [execute_usage_script, heval]

/-- A network oracle on which every send fails (never consulted in the
uses below). -/
def netNone : NetOracle := fun _ _ _ => none

/-- Interpreter oracles on which script evaluation always fails. -/
def jsEvalFails : JsOracles Unit :=
  { evalConfig := fun _ => none, getRequest := fun _ => none,
    parseRequestConfig := fun _ => none, getExtractor := fun _ => none,
    parseResultJson := fun _ => none }

/-- Witness for C7 at a concrete invocation with failing evaluation. -/
theorem execute_usage_script_eval_failure_witness :
    execute_usage_script jsEvalFails Env.unset dnsNone netNone (fun _ => [])
      ("x".toList) ("k".toList) ("b".toList) none none 5 =
      (.err .configParseFailed, false) :=
  execute_usage_script_eval_failure jsEvalFails Env.unset dnsNone netNone (fun _ => [])
    ("x".toList) ("k".toList) ("b".toList) none none 5 rfl
